import Mathlib

/-!
# wicked: interface states, device inventory lookups, interface name creation

A shallow embedding of

* `client/fsm.h`: the administrative state enumeration and the default
  worker timeout;
* `src/netinfo.c`: `ni_netdev_by_name`, `ni_netdev_by_vlan_name_and_tag`
  and `ni_netdev_make_name`.

Conventions of the embedding.

* A C string is the list of its bytes before the terminating NUL (`CStr`);
  a `char *` that may be NULL is an `Option CStr`; `strcmp(a, b) == 0` is
  equality of the two lists.
* The singly linked list `nc->interfaces` (chained through `dev->next`) is a
  Lean list in chain order; a returned `ni_netdev_t *` is the device found,
  `NULL` is `none`.
* Only the fields that the embedded functions read are kept in the records.
-/

namespace Wicked

/-! ## client/fsm.h -/

/-- Interface state `STATE_NONE = 0`, the first enumerator. -/
def STATE_NONE : Nat := 0
/-- Enumerator following `STATE_NONE`. -/
def STATE_DEVICE_DOWN : Nat := STATE_NONE + 1
/-- Enumerator following `STATE_DEVICE_DOWN`. -/
def STATE_DEVICE_EXISTS : Nat := STATE_DEVICE_DOWN + 1
/-- Enumerator following `STATE_DEVICE_EXISTS`. -/
def STATE_DEVICE_UP : Nat := STATE_DEVICE_EXISTS + 1
/-- Enumerator following `STATE_DEVICE_UP`. -/
def STATE_FIREWALL_UP : Nat := STATE_DEVICE_UP + 1
/-- Enumerator following `STATE_FIREWALL_UP`. -/
def STATE_LINK_UP : Nat := STATE_FIREWALL_UP + 1
/-- Enumerator following `STATE_LINK_UP`. -/
def STATE_LINK_AUTHENTICATED : Nat := STATE_LINK_UP + 1
/-- Enumerator following `STATE_LINK_AUTHENTICATED`. -/
def STATE_ADDRCONF_UP : Nat := STATE_LINK_AUTHENTICATED + 1
/-- The closing enumerator `__STATE_MAX`, one past the last state. -/
def __STATE_MAX : Nat := STATE_ADDRCONF_UP + 1

/-- The eight administrative states in the order of their declaration. -/
def all_states : List Nat :=
  [STATE_NONE, STATE_DEVICE_DOWN, STATE_DEVICE_EXISTS, STATE_DEVICE_UP,
   STATE_FIREWALL_UP, STATE_LINK_UP, STATE_LINK_AUTHENTICATED, STATE_ADDRCONF_UP]

/-- The macro `NI_IFWORKER_DEFAULT_TIMEOUT`, in milliseconds. -/
def NI_IFWORKER_DEFAULT_TIMEOUT : Nat := 20000

/-! ## src/netinfo.c: data -/

/-- A C string: its bytes up to, not including, the terminating NUL. -/
abbrev CStr := List Nat

/-- The bytes of an ASCII string literal, used to write down concrete
inventories. -/
def cstr (s : String) : CStr := s.toList.map Char.toNat

/-- The fields of `ni_vlan_t` read through `dev->link.vlan`. -/
structure ni_vlan_t where
  physdev_name : Option CStr
  tag : Nat
  deriving DecidableEq, Repr

/-- The fields of `dev->link` read by the lookups. -/
structure ni_linkinfo_t where
  ifindex : Nat
  type : Nat
  vlan : Option ni_vlan_t
  deriving DecidableEq, Repr

/-- The fields of `ni_netdev_t` read by the lookups; `next` is the list tail. -/
structure ni_netdev_t where
  name : Option CStr
  link : ni_linkinfo_t
  deriving DecidableEq, Repr

/-- The structure `ni_netconfig`, reduced to its interface list. -/
structure ni_netconfig where
  interfaces : List ni_netdev_t
  deriving DecidableEq, Repr

/-! ## src/netinfo.c: lookups -/

/-- The test `dev->name && !strcmp(dev->name, name)`. -/
def name_match (name : CStr) (dev : ni_netdev_t) : Bool :=
  match dev.name with
  | none => false
  | some n => n == name

/-- The loop of `ni_netdev_by_name` over the chain starting at `dev`. -/
def ni_netdev_by_name_loop (name : CStr) : List ni_netdev_t → Option ni_netdev_t
  | [] => none
  | dev :: next =>
    if name_match name dev then some dev
    else ni_netdev_by_name_loop name next

/-- Find interface by name. -/
def ni_netdev_by_name (nc : ni_netconfig) (name : CStr) : Option ni_netdev_t :=
  ni_netdev_by_name_loop name nc.interfaces

/-- The test in the loop body of `ni_netdev_by_vlan_name_and_tag`, the four
conjuncts in source order. The link type code `NI_IFTYPE_VLAN` comes from a
header that is not part of the excerpt and is a parameter. -/
def vlan_match (NI_IFTYPE_VLAN : Nat) (physdev_name : CStr) (tag : Nat)
    (dev : ni_netdev_t) : Bool :=
  dev.link.type == NI_IFTYPE_VLAN &&
    match dev.link.vlan with
    | none => false
    | some vlan =>
      vlan.tag == tag &&
        match vlan.physdev_name with
        | none => false
        | some pn => pn == physdev_name

/-- The loop of `ni_netdev_by_vlan_name_and_tag` over the chain. -/
def ni_netdev_by_vlan_loop (NI_IFTYPE_VLAN : Nat) (physdev_name : CStr) (tag : Nat) :
    List ni_netdev_t → Option ni_netdev_t
  | [] => none
  | dev :: next =>
    if vlan_match NI_IFTYPE_VLAN physdev_name tag dev then some dev
    else ni_netdev_by_vlan_loop NI_IFTYPE_VLAN physdev_name tag next

/-- Find VLAN interface by its tag. -/
def ni_netdev_by_vlan_name_and_tag (NI_IFTYPE_VLAN : Nat) (nc : ni_netconfig)
    (physdev_name : Option CStr) (tag : Nat) : Option ni_netdev_t :=
  match physdev_name with
  | none => none
  | some pn =>
    if tag = 0 then none
    else ni_netdev_by_vlan_loop NI_IFTYPE_VLAN pn tag nc.interfaces

/-! ## src/netinfo.c: interface name creation -/

/-- The conversion `%u`: the decimal digits of `num` as ASCII bytes. -/
def fmt_u (num : Nat) : CStr := (Nat.toDigits 10 num).map Char.toNat

/-- What `snprintf(namebuf, size, "%s%u", stem, num)` leaves in `namebuf`:
the formatted text cut to `size - 1` bytes (the last byte holds the NUL). -/
def snprintf_su (size : Nat) (stem : CStr) (num : Nat) : CStr :=
  (stem ++ fmt_u num).take (size - 1)

/-- The size of the static buffer `namebuf`. -/
def NAMEBUF_SIZE : Nat := 64

/-- The loop bound of `ni_netdev_make_name`. -/
def MAKE_NAME_LIMIT : Nat := 65536

/-- The `for` loop of `ni_netdev_make_name`, entered at counter `num` with
`left` iterations to go (`left = 65536 - num`). -/
def ni_netdev_make_name_loop (nc : ni_netconfig) (stem : CStr) :
    Nat → Nat → Option CStr
  | 0, _ => none
  | left + 1, num =>
    let namebuf := snprintf_su NAMEBUF_SIZE stem num
    if (ni_netdev_by_name nc namebuf).isNone then some namebuf
    else ni_netdev_make_name_loop nc stem left (num + 1)

/-- Create a unique interface name. -/
def ni_netdev_make_name (nc : ni_netconfig) (stem : CStr) : Option CStr :=
  ni_netdev_make_name_loop nc stem MAKE_NAME_LIMIT 0

/-! ## Planner (client side, outside the excerpt) -/

/-- The fields `from_state` and `next_state` of `struct ni_netif_action`
(`ni_iftransition_t`) in `client/fsm.h`. -/
structure ni_netif_action where
  from_state : Nat
  next_state : Nat
  deriving DecidableEq, Repr

/-- The type `ni_uint_range_t` of `target_range`: the bounds `[min, max]`. -/
structure ni_uint_range_t where
  min : Nat
  max : Nat
  deriving DecidableEq, Repr

/-- The fields of `struct ni_ifworker` in `client/fsm.h` that planning reads
or writes: `target_range`, the flags `failed` and `done`, `fsm.state` and
`fsm.action_table`. -/
structure ni_ifworker where
  target_range : ni_uint_range_t
  failed : Bool
  done : Bool
  fsm_state : Nat
  fsm_action_table : List ni_netif_action
  deriving DecidableEq, Repr

/-- Modelled from the spec: the static transition table is client code that is
not part of the excerpt. Spec 4.1: a single static table declares every legal
edge in the state lattice; forward edges advance state, reverse edges lower
it; 3.4: `from_state` and `next_state` are adjacent in the state order. -/
def ni_iftransitions : List ni_netif_action :=
  [ ⟨STATE_NONE, STATE_DEVICE_DOWN⟩,
    ⟨STATE_DEVICE_DOWN, STATE_DEVICE_EXISTS⟩,
    ⟨STATE_DEVICE_EXISTS, STATE_DEVICE_UP⟩,
    ⟨STATE_DEVICE_UP, STATE_FIREWALL_UP⟩,
    ⟨STATE_FIREWALL_UP, STATE_LINK_UP⟩,
    ⟨STATE_LINK_UP, STATE_LINK_AUTHENTICATED⟩,
    ⟨STATE_LINK_AUTHENTICATED, STATE_ADDRCONF_UP⟩,
    ⟨STATE_ADDRCONF_UP, STATE_LINK_AUTHENTICATED⟩,
    ⟨STATE_LINK_AUTHENTICATED, STATE_LINK_UP⟩,
    ⟨STATE_LINK_UP, STATE_FIREWALL_UP⟩,
    ⟨STATE_FIREWALL_UP, STATE_DEVICE_UP⟩,
    ⟨STATE_DEVICE_UP, STATE_DEVICE_EXISTS⟩,
    ⟨STATE_DEVICE_EXISTS, STATE_DEVICE_DOWN⟩,
    ⟨STATE_DEVICE_DOWN, STATE_NONE⟩ ]

/-- Modelled from the spec: the table lookup of the planner is client code that
is not part of the excerpt. Spec 4.3: action records are allocated from the
static table; this is the record of the edge `from_state → next_state`. -/
def ni_iftransition_lookup (from_state next_state : Nat) : Option ni_netif_action :=
  ni_iftransitions.find? (fun a => a.from_state == from_state && a.next_state == next_state)

/-- Modelled from the spec: the forward walk of the planner is client code that
is not part of the excerpt. Spec 4.1 and 4.3: the forward action subpath, one
table edge per step upwards, `steps` edges starting at `cur`. -/
def ni_ifworker_plan_up : Nat → Nat → List ni_netif_action
  | 0, _ => []
  | steps + 1, cur =>
    match ni_iftransition_lookup cur (cur + 1) with
    | some a => a :: ni_ifworker_plan_up steps (cur + 1)
    | none => ni_ifworker_plan_up steps (cur + 1)

/-- Modelled from the spec: the reverse walk of the planner is client code that
is not part of the excerpt. Spec 4.1 and 4.3: the reverse subpath, one table
edge per step downwards, `steps` edges starting at `cur`. -/
def ni_ifworker_plan_down : Nat → Nat → List ni_netif_action
  | 0, _ => []
  | steps + 1, cur =>
    match ni_iftransition_lookup cur (cur - 1) with
    | some a => a :: ni_ifworker_plan_down steps (cur - 1)
    | none => ni_ifworker_plan_down steps (cur - 1)

/-- Modelled from the spec: the planner is client code that is not part of the
excerpt. Spec 4.3: if `current < tmin`, produce the forward action subpath
from `current` to `tmin`; if `current > tmax`, produce the reverse subpath from
`current` to `tmax`; otherwise produce an empty plan and mark `done`. -/
def ni_ifworker_plan (w : ni_ifworker) : ni_ifworker :=
  if w.fsm_state < w.target_range.min then
    { w with fsm_action_table :=
        ni_ifworker_plan_up (w.target_range.min - w.fsm_state) w.fsm_state }
  else if w.fsm_state > w.target_range.max then
    { w with fsm_action_table :=
        ni_ifworker_plan_down (w.fsm_state - w.target_range.max) w.fsm_state }
  else
    { w with fsm_action_table := [], done := true }

/-- An action list is a path from `s` to `t` in steps of `up` (true: each action
goes to the next higher state; false: to the next lower one): the first action
starts at `s`, each action starts where the one before it ended, and the last
one ends at `t`; the empty list is a path only from a state to itself. -/
def is_action_path (up : Bool) : Nat → Nat → List ni_netif_action → Prop
  | s, t, [] => s = t
  | s, t, a :: rest =>
    a.from_state = s ∧
    (if up then a.next_state = a.from_state + 1 else a.next_state + 1 = a.from_state) ∧
    is_action_path up a.next_state t rest

/-- A device is a VLAN on `physdev_name` with tag `tag`: its link type is
VLAN, it has VLAN data, the VLAN tag is `tag`, and the VLAN physdev name is
set and equal to `physdev_name`. -/
def is_vlan_on (NI_IFTYPE_VLAN : Nat) (physdev_name : CStr) (tag : Nat)
    (dev : ni_netdev_t) : Prop :=
  dev.link.type = NI_IFTYPE_VLAN ∧
    ∃ vlan, dev.link.vlan = some vlan ∧ vlan.tag = tag ∧
      vlan.physdev_name = some physdev_name

/-- The candidate name that `ni_netdev_make_name` tries at counter `num`. -/
def candidate_name (stem : CStr) (num : Nat) : CStr :=
  snprintf_su NAMEBUF_SIZE stem num

/-! ## Concrete inputs -/

/-- A worker in `STATE_DEVICE_DOWN` with target range
`[STATE_LINK_UP, STATE_ADDRCONF_UP]`. -/
def worker_below : ni_ifworker :=
  { target_range := ⟨STATE_LINK_UP, STATE_ADDRCONF_UP⟩, failed := false, done := false,
    fsm_state := STATE_DEVICE_DOWN, fsm_action_table := [] }

/-- A worker in `STATE_ADDRCONF_UP` with target range
`[STATE_NONE, STATE_DEVICE_UP]`. -/
def worker_above : ni_ifworker :=
  { target_range := ⟨STATE_NONE, STATE_DEVICE_UP⟩, failed := false, done := false,
    fsm_state := STATE_ADDRCONF_UP, fsm_action_table := [] }

/-- A worker in `STATE_LINK_UP` with target range
`[STATE_DEVICE_UP, __STATE_MAX]`. -/
def worker_inside : ni_ifworker :=
  { target_range := ⟨STATE_DEVICE_UP, __STATE_MAX⟩, failed := false, done := false,
    fsm_state := STATE_LINK_UP, fsm_action_table := [] }

/-- A device with a name and an ifindex, link type 0 and no VLAN data. -/
def named_dev (n : String) (ifindex : Nat) : ni_netdev_t :=
  { name := some (cstr n), link := { ifindex := ifindex, type := 0, vlan := none } }

/-- A device whose name is unset. -/
def unnamed_dev (ifindex : Nat) : ni_netdev_t :=
  { name := none, link := { ifindex := ifindex, type := 0, vlan := none } }

/-- An unnamed device of link type `type` with VLAN data. -/
def vlan_dev (ifindex type : Nat) (physdev_name : Option CStr) (tag : Nat) : ni_netdev_t :=
  { name := none,
    link := { ifindex := ifindex, type := type,
              vlan := some { physdev_name := physdev_name, tag := tag } } }

/-- An inventory with an unnamed device and two devices called `eth0`. -/
def inventory_a : ni_netconfig :=
  ⟨[unnamed_dev 7, named_dev "lo" 1, named_dev "eth0" 2, named_dev "eth1" 3,
    named_dev "eth0" 4]⟩

/-- An inventory with VLAN devices that miss the request (`eth0`, tag 42, type
code 5) in one way each, followed by two that meet it. -/
def inventory_v : ni_netconfig :=
  ⟨[named_dev "eth0" 2, vlan_dev 10 5 (some (cstr "eth0")) 7,
    vlan_dev 11 5 (some (cstr "eth1")) 42, vlan_dev 13 2 (some (cstr "eth0")) 42,
    vlan_dev 14 5 none 42, vlan_dev 12 5 (some (cstr "eth0")) 42,
    vlan_dev 15 5 (some (cstr "eth0")) 42]⟩

/-- A stem of 63 bytes, each the letter `x`. -/
def long_stem : CStr := List.replicate 63 120

/-- An inventory whose only device is named `long_stem`. -/
def inventory_long : ni_netconfig :=
  ⟨[{ name := some long_stem, link := { ifindex := 1, type := 0, vlan := none } }]⟩

/-- An inventory holding `eth0` and `eth1`. -/
def inventory_e : ni_netconfig :=
  ⟨[named_dev "eth0" 1, named_dev "eth1" 2]⟩

/-! ## Lemmas on the lookups -/

theorem name_match_iff (name : CStr) (dev : ni_netdev_t) :
    name_match name dev = true ↔ dev.name = some name := by
  unfold name_match
  cases h : dev.name with
  | none => simp
  | some n => simp

theorem by_name_loop_none_iff (name : CStr) (l : List ni_netdev_t) :
    ni_netdev_by_name_loop name l = none ↔ ∀ e ∈ l, e.name ≠ some name := by
  induction l with
  | nil => simp [ni_netdev_by_name_loop]
  | cons dev next ih =>
    by_cases h : name_match name dev = true
    · have hn := (name_match_iff name dev).1 h
      simp [ni_netdev_by_name_loop, h, hn]
    · have hn : dev.name ≠ some name := fun e => h ((name_match_iff name dev).2 e)
      simp [ni_netdev_by_name_loop, h, hn, ih]

theorem by_name_loop_some_iff (name : CStr) (l : List ni_netdev_t) (dev : ni_netdev_t) :
    ni_netdev_by_name_loop name l = some dev ↔
      ∃ pre post, l = pre ++ dev :: post ∧ dev.name = some name ∧
        ∀ e ∈ pre, e.name ≠ some name := by
  induction l with
  | nil => simp [ni_netdev_by_name_loop]
  | cons d next ih =>
    by_cases h : name_match name d = true
    · have hn := (name_match_iff name d).1 h
      simp only [ni_netdev_by_name_loop, h, if_true, Option.some.injEq]
      constructor
      · rintro rfl
        exact ⟨[], next, rfl, hn, by simp⟩
      · rintro ⟨pre, post, hl, _, hpre⟩
        cases pre with
        | nil => simpa using (List.cons.inj hl).1
        | cons p pre =>
          have hp : d = p := (List.cons.inj hl).1
          exact absurd (hp ▸ hn) (hpre p (List.mem_cons_self _ _))
    · have hn : d.name ≠ some name := fun e => h ((name_match_iff name d).2 e)
      simp only [ni_netdev_by_name_loop, h, Bool.false_eq_true, if_false, ih]
      constructor
      · rintro ⟨pre, post, hl, hd, hpre⟩
        refine ⟨d :: pre, post, by simp [hl], hd, ?_⟩
        intro e he
        rcases List.mem_cons.1 he with rfl | he
        · exact hn
        · exact hpre e he
      · rintro ⟨pre, post, hl, hd, hpre⟩
        cases pre with
        | nil =>
          have hp : d = dev := (List.cons.inj hl).1
          exact absurd (hp ▸ hd) hn
        | cons p pre =>
          exact ⟨pre, post, (List.cons.inj hl).2, hd,
            fun e he => hpre e (List.mem_cons_of_mem _ he)⟩

theorem vlan_match_iff (V : Nat) (pn : CStr) (tag : Nat) (dev : ni_netdev_t) :
    vlan_match V pn tag dev = true ↔ is_vlan_on V pn tag dev := by
  unfold vlan_match is_vlan_on
  cases hv : dev.link.vlan with
  | none => simp
  | some vlan =>
    cases hp : vlan.physdev_name with
    | none => simp [hp]
    | some q => simp [hp]

theorem by_vlan_loop_eq_find (V : Nat) (pn : CStr) (tag : Nat) (l : List ni_netdev_t) :
    ni_netdev_by_vlan_loop V pn tag l = l.find? (vlan_match V pn tag) := by
  induction l with
  | nil => rfl
  | cons dev next ih =>
    by_cases h : vlan_match V pn tag dev = true
    · simp [ni_netdev_by_vlan_loop, List.find?, h]
    · simp [ni_netdev_by_vlan_loop, List.find?, h, ih]

theorem by_vlan_loop_none_iff (V : Nat) (pn : CStr) (tag : Nat) (l : List ni_netdev_t) :
    ni_netdev_by_vlan_loop V pn tag l = none ↔ ∀ e ∈ l, ¬ is_vlan_on V pn tag e := by
  rw [by_vlan_loop_eq_find, List.find?_eq_none]
  constructor
  · intro h e he hv
    exact h e he ((vlan_match_iff V pn tag e).2 hv)
  · intro h e he hv
    exact h e he ((vlan_match_iff V pn tag e).1 hv)

theorem by_vlan_loop_some_iff (V : Nat) (pn : CStr) (tag : Nat) (l : List ni_netdev_t)
    (dev : ni_netdev_t) :
    ni_netdev_by_vlan_loop V pn tag l = some dev ↔
      ∃ pre post, l = pre ++ dev :: post ∧ is_vlan_on V pn tag dev ∧
        ∀ e ∈ pre, ¬ is_vlan_on V pn tag e := by
  rw [by_vlan_loop_eq_find, List.find?_eq_some]
  constructor
  · rintro ⟨hd, pre, post, hl, hpre⟩
    refine ⟨pre, post, hl, (vlan_match_iff V pn tag dev).1 hd, ?_⟩
    intro e he hv
    have := hpre e he
    rw [(vlan_match_iff V pn tag e).2 hv] at this
    exact absurd this (by decide)
  · rintro ⟨pre, post, hl, hd, hpre⟩
    refine ⟨(vlan_match_iff V pn tag dev).2 hd, pre, post, hl, ?_⟩
    intro e he
    cases hm : vlan_match V pn tag e with
    | false => rfl
    | true => exact absurd ((vlan_match_iff V pn tag e).1 hm) (hpre e he)

/-! ## Lemmas on name creation -/

theorem make_name_loop_none_iff (nc : ni_netconfig) (stem : CStr) (left num : Nat) :
    ni_netdev_make_name_loop nc stem left num = none ↔
      ∀ k, k < left → ni_netdev_by_name nc (candidate_name stem (num + k)) ≠ none := by
  induction left generalizing num with
  | zero => simp [ni_netdev_make_name_loop]
  | succ left ih =>
    unfold ni_netdev_make_name_loop
    simp only
    by_cases h : (ni_netdev_by_name nc (snprintf_su NAMEBUF_SIZE stem num)).isNone = true
    · simp only [h, if_true]
      constructor
      · intro hc; cases hc
      · intro hall
        have h0 := hall 0 (Nat.succ_pos left)
        rw [Option.isNone_iff_eq_none] at h
        exact absurd h (by simpa [candidate_name] using h0)
    · simp only [h, Bool.false_eq_true, if_false, ih]
      constructor
      · intro hall k hk
        cases k with
        | zero =>
          intro hn
          exact h (by simpa [candidate_name] using congrArg Option.isNone hn)
        | succ k =>
          have := hall k (Nat.lt_of_succ_lt_succ hk)
          rwa [Nat.add_assoc, Nat.add_comm 1 k] at this
      · intro hall k hk
        have := hall (k + 1) (Nat.succ_lt_succ hk)
        rwa [Nat.add_assoc, Nat.add_comm 1 k]

theorem make_name_loop_some (nc : ni_netconfig) (stem : CStr) (left num : Nat)
    (name : CStr) (h : ni_netdev_make_name_loop nc stem left num = some name) :
    ni_netdev_by_name nc name = none ∧
      ∃ k, k < left ∧ name = candidate_name stem (num + k) ∧
        ∀ j, j < k → ni_netdev_by_name nc (candidate_name stem (num + j)) ≠ none := by
  induction left generalizing num with
  | zero => simp [ni_netdev_make_name_loop] at h
  | succ left ih =>
    unfold ni_netdev_make_name_loop at h
    simp only at h
    by_cases hc : (ni_netdev_by_name nc (snprintf_su NAMEBUF_SIZE stem num)).isNone = true
    · simp only [hc, if_true, Option.some.injEq] at h
      subst h
      refine ⟨Option.isNone_iff_eq_none.1 hc, 0, Nat.succ_pos left, rfl, ?_⟩
      intro j hj
      exact absurd hj (Nat.not_lt_zero j)
    · simp only [hc, Bool.false_eq_true, if_false] at h
      obtain ⟨hfree, k, hk, hname, hbelow⟩ := ih (num + 1) h
      refine ⟨hfree, k + 1, Nat.succ_lt_succ hk, ?_, ?_⟩
      · rw [hname, Nat.add_assoc, Nat.add_comm 1 k]
      · intro j hj
        cases j with
        | zero =>
          intro hn
          exact hc (by simpa [candidate_name] using congrArg Option.isNone hn)
        | succ j =>
          have := hbelow j (Nat.lt_of_succ_lt_succ hj)
          rwa [Nat.add_assoc, Nat.add_comm 1 j] at this

theorem candidate_name_long (stem : CStr) (num : Nat) (h : stem.length = 63) :
    candidate_name stem num = stem := by
  unfold candidate_name snprintf_su NAMEBUF_SIZE
  have e : 64 - 1 = stem.length := by omega
  rw [e, List.take_left]

/-! ## Lemmas on the planner -/

theorem lookup_up (cur : Nat) (h : cur + 1 < __STATE_MAX) :
    ni_iftransition_lookup cur (cur + 1) = some ⟨cur, cur + 1⟩ := by
  have hb : cur < 7 := by
    have : __STATE_MAX = 8 := rfl
    omega
  interval_cases cur <;> rfl

theorem lookup_down (cur : Nat) (h0 : 0 < cur) (h : cur < __STATE_MAX) :
    ni_iftransition_lookup cur (cur - 1) = some ⟨cur, cur - 1⟩ := by
  have hb : cur < 8 := h
  interval_cases cur <;> rfl

theorem plan_up_eq (steps cur : Nat) (h : cur + steps < __STATE_MAX) :
    ni_ifworker_plan_up steps cur =
      (List.range steps).map (fun i => (⟨cur + i, cur + i + 1⟩ : ni_netif_action)) := by
  induction steps generalizing cur with
  | zero => rfl
  | succ steps ih =>
    have h1 : cur + 1 < __STATE_MAX := by omega
    have h2 : cur + 1 + steps < __STATE_MAX := by omega
    rw [ni_ifworker_plan_up, lookup_up cur h1, ih (cur + 1) h2, List.range_succ_eq_map]
    simp only [List.map_cons, List.map_map, Nat.add_zero, List.cons.injEq, true_and]
    apply List.map_congr_left
    intro i _
    simp only [Function.comp, Nat.succ_eq_add_one]
    have e : cur + 1 + i = cur + (i + 1) := by omega
    rw [e]

theorem plan_down_eq (steps cur : Nat) (hs : steps ≤ cur) (h : cur < __STATE_MAX) :
    ni_ifworker_plan_down steps cur =
      (List.range steps).map (fun i => (⟨cur - i, cur - i - 1⟩ : ni_netif_action)) := by
  induction steps generalizing cur with
  | zero => rfl
  | succ steps ih =>
    have h0 : 0 < cur := by omega
    have h1 : steps ≤ cur - 1 := by omega
    have h2 : cur - 1 < __STATE_MAX := by omega
    rw [ni_ifworker_plan_down, lookup_down cur h0 h, ih (cur - 1) h1 h2,
      List.range_succ_eq_map]
    simp only [List.map_cons, List.map_map, Nat.sub_zero, List.cons.injEq, true_and]
    apply List.map_congr_left
    intro i _
    simp only [Function.comp, Nat.succ_eq_add_one]
    have e : cur - 1 - i = cur - (i + 1) := by omega
    rw [e]

theorem path_up_range (steps cur : Nat) :
    is_action_path true cur (cur + steps)
      ((List.range steps).map (fun i => (⟨cur + i, cur + i + 1⟩ : ni_netif_action))) := by
  induction steps generalizing cur with
  | zero => simp [is_action_path]
  | succ steps ih =>
    rw [List.range_succ_eq_map]
    simp only [List.map_cons, List.map_map, is_action_path, Nat.add_zero, if_true, true_and]
    have e : ((fun i => (⟨cur + i, cur + i + 1⟩ : ni_netif_action)) ∘ Nat.succ)
        = (fun i => (⟨cur + 1 + i, cur + 1 + i + 1⟩ : ni_netif_action)) := by
      funext i
      simp only [Function.comp, Nat.succ_eq_add_one]
      have e1 : cur + (i + 1) = cur + 1 + i := by omega
      rw [e1]
    rw [e]
    have := ih (cur + 1)
    rwa [Nat.add_assoc, Nat.add_comm 1 steps] at this

theorem path_down_range (steps cur : Nat) (hs : steps ≤ cur) :
    is_action_path false cur (cur - steps)
      ((List.range steps).map (fun i => (⟨cur - i, cur - i - 1⟩ : ni_netif_action))) := by
  induction steps generalizing cur with
  | zero => simp [is_action_path]
  | succ steps ih =>
    rw [List.range_succ_eq_map]
    simp only [List.map_cons, List.map_map, is_action_path, Nat.sub_zero, Bool.false_eq_true,
      if_false, true_and]
    have e : ((fun i => (⟨cur - i, cur - i - 1⟩ : ni_netif_action)) ∘ Nat.succ)
        = (fun i => (⟨cur - 1 - i, cur - 1 - i - 1⟩ : ni_netif_action)) := by
      funext i
      simp only [Function.comp, Nat.succ_eq_add_one]
      have e1 : cur - (i + 1) = cur - 1 - i := by omega
      rw [e1]
    rw [e]
    refine ⟨by omega, ?_⟩
    have := ih (cur - 1) (by omega)
    have e2 : cur - 1 - steps = cur - (steps + 1) := by omega
    rwa [e2] at this

/-! ## The state enumeration and the timeout -/

/-- C1: the eight administrative states are strictly ordered by their integer
encoding, `STATE_NONE < STATE_DEVICE_DOWN < STATE_DEVICE_EXISTS <
STATE_DEVICE_UP < STATE_FIREWALL_UP < STATE_LINK_UP < STATE_LINK_AUTHENTICATED
< STATE_ADDRCONF_UP`; the list of the eight codes is strictly increasing (so
any two of them are comparable and different), it has no duplicates, and every
code is below `__STATE_MAX`. -/
theorem states_strictly_ordered :
    STATE_NONE < STATE_DEVICE_DOWN ∧
    STATE_DEVICE_DOWN < STATE_DEVICE_EXISTS ∧
    STATE_DEVICE_EXISTS < STATE_DEVICE_UP ∧
    STATE_DEVICE_UP < STATE_FIREWALL_UP ∧
    STATE_FIREWALL_UP < STATE_LINK_UP ∧
    STATE_LINK_UP < STATE_LINK_AUTHENTICATED ∧
    STATE_LINK_AUTHENTICATED < STATE_ADDRCONF_UP ∧
    all_states.Pairwise (fun a b => a < b) ∧
    all_states.Pairwise (fun a b => a ≠ b) ∧
    all_states.length = 8 ∧
    (∀ s ∈ all_states, s < __STATE_MAX) := by
  decide

/-- C6: the default per-worker timeout `NI_IFWORKER_DEFAULT_TIMEOUT` is 20000
milliseconds, which is exactly 20 seconds of 1000 milliseconds each. -/
theorem default_timeout_value :
    NI_IFWORKER_DEFAULT_TIMEOUT = 20000 ∧ NI_IFWORKER_DEFAULT_TIMEOUT = 20 * 1000 := by
  decide

/-! ## The planner -/

/-- C2: for a worker whose current state `s` is one of the eight states and
whose target range `[tmin, tmax]` has `tmin ≤ tmax`, with `tmin` one of the
eight states (`tmax` may be any bound, `__STATE_MAX` included), the planner
yields: when `s < tmin` the forward path from `s` to `tmin`, the actions
`s → s+1, ..., tmin-1 → tmin`; when `s > tmax` the reverse path from `s` down to
`tmax`, the actions `s → s-1, ..., tmax+1 → tmax`; otherwise the empty plan with
`done` set. -/
theorem ni_ifworker_plan_spec (w : ni_ifworker)
    (hs : w.fsm_state < __STATE_MAX)
    (hmin : w.target_range.min < __STATE_MAX)
    (hr : w.target_range.min ≤ w.target_range.max) :
    (w.fsm_state < w.target_range.min →
      (ni_ifworker_plan w).fsm_action_table =
          (List.range (w.target_range.min - w.fsm_state)).map
            (fun i => (⟨w.fsm_state + i, w.fsm_state + i + 1⟩ : ni_netif_action)) ∧
        is_action_path true w.fsm_state w.target_range.min
          (ni_ifworker_plan w).fsm_action_table) ∧
    (w.target_range.max < w.fsm_state →
      (ni_ifworker_plan w).fsm_action_table =
          (List.range (w.fsm_state - w.target_range.max)).map
            (fun i => (⟨w.fsm_state - i, w.fsm_state - i - 1⟩ : ni_netif_action)) ∧
        is_action_path false w.fsm_state w.target_range.max
          (ni_ifworker_plan w).fsm_action_table) ∧
    (w.target_range.min ≤ w.fsm_state → w.fsm_state ≤ w.target_range.max →
      (ni_ifworker_plan w).fsm_action_table = [] ∧ (ni_ifworker_plan w).done = true) := by
  refine ⟨?_, ?_, ?_⟩
  · intro hlt
    have hb : w.fsm_state + (w.target_range.min - w.fsm_state) < __STATE_MAX := by omega
    have ht : (ni_ifworker_plan w).fsm_action_table =
        (List.range (w.target_range.min - w.fsm_state)).map
          (fun i => (⟨w.fsm_state + i, w.fsm_state + i + 1⟩ : ni_netif_action)) := by
      simp only [ni_ifworker_plan, hlt, if_true]
      exact plan_up_eq _ _ hb
    refine ⟨ht, ?_⟩
    rw [ht]
    have := path_up_range (w.target_range.min - w.fsm_state) w.fsm_state
    have e : w.fsm_state + (w.target_range.min - w.fsm_state) = w.target_range.min := by omega
    rwa [e] at this
  · intro hgt
    have hn : ¬ w.fsm_state < w.target_range.min := by omega
    have ht : (ni_ifworker_plan w).fsm_action_table =
        (List.range (w.fsm_state - w.target_range.max)).map
          (fun i => (⟨w.fsm_state - i, w.fsm_state - i - 1⟩ : ni_netif_action)) := by
      simp only [ni_ifworker_plan, hn, if_false, gt_iff_lt, hgt, if_true]
      exact plan_down_eq _ _ (by omega) hs
    refine ⟨ht, ?_⟩
    rw [ht]
    have := path_down_range (w.fsm_state - w.target_range.max) w.fsm_state (by omega)
    have e : w.fsm_state - (w.fsm_state - w.target_range.max) = w.target_range.max := by omega
    rwa [e] at this
  · intro h1 h2
    have hn1 : ¬ w.fsm_state < w.target_range.min := by omega
    have hn2 : ¬ w.target_range.max < w.fsm_state := by omega
    simp [ni_ifworker_plan, hn1, hn2]

/-- The planner theorem at three concrete workers, one per case: below the
range (four forward actions 1→2→3→4→5), above it (four reverse actions
7→6→5→4→3) and inside it (empty plan, done). -/
theorem ni_ifworker_plan_spec_witness :
    ((ni_ifworker_plan worker_below).fsm_action_table =
        [⟨1, 2⟩, ⟨2, 3⟩, ⟨3, 4⟩, ⟨4, 5⟩] ∧
      is_action_path true 1 5 (ni_ifworker_plan worker_below).fsm_action_table) ∧
    ((ni_ifworker_plan worker_above).fsm_action_table =
        [⟨7, 6⟩, ⟨6, 5⟩, ⟨5, 4⟩, ⟨4, 3⟩] ∧
      is_action_path false 7 3 (ni_ifworker_plan worker_above).fsm_action_table) ∧
    ((ni_ifworker_plan worker_inside).fsm_action_table = [] ∧
      (ni_ifworker_plan worker_inside).done = true) :=
  ⟨(ni_ifworker_plan_spec worker_below (by decide) (by decide) (by decide)).1 (by decide),
   (ni_ifworker_plan_spec worker_above (by decide) (by decide) (by decide)).2.1 (by decide),
   (ni_ifworker_plan_spec worker_inside (by decide) (by decide) (by decide)).2.2
     (by decide) (by decide)⟩

/-! ## Lookup by name -/

/-- C4: `ni_netdev_by_name` returns a device exactly when that device is the
first one in interface-list order whose name is set and equal to the given
name (everything before it in the list has another name or none); it returns
NULL if and only if no device in the list has that name; and a device whose
name is unset is never returned. -/
theorem ni_netdev_by_name_spec (nc : ni_netconfig) (name : CStr) :
    (∀ dev, ni_netdev_by_name nc name = some dev ↔
      ∃ pre post, nc.interfaces = pre ++ dev :: post ∧ dev.name = some name ∧
        ∀ e ∈ pre, e.name ≠ some name) ∧
    (ni_netdev_by_name nc name = none ↔ ∀ e ∈ nc.interfaces, e.name ≠ some name) ∧
    (∀ dev, ni_netdev_by_name nc name = some dev → dev.name ≠ none) := by
  refine ⟨fun dev => by_name_loop_some_iff name nc.interfaces dev,
    by_name_loop_none_iff name nc.interfaces, ?_⟩
  intro dev h
  obtain ⟨_, _, _, hd, _⟩ := (by_name_loop_some_iff name nc.interfaces dev).1 h
  rw [hd]
  exact Option.some_ne_none name

/-- The lookup-by-name theorem on `inventory_a`: asking for `eth0` yields the
first of the two devices of that name (the one with ifindex 2), skipping the
unnamed device and `lo` before it; asking for `wlan0` yields NULL. -/
theorem ni_netdev_by_name_spec_witness :
    ni_netdev_by_name inventory_a (cstr "eth0") = some (named_dev "eth0" 2) ∧
    ni_netdev_by_name inventory_a (cstr "wlan0") = none ∧
    (named_dev "eth0" 2).name ≠ none :=
  ⟨((ni_netdev_by_name_spec inventory_a (cstr "eth0")).1 (named_dev "eth0" 2)).2
      ⟨[unnamed_dev 7, named_dev "lo" 1], [named_dev "eth1" 3, named_dev "eth0" 4],
        by decide, by decide, by decide⟩,
   (ni_netdev_by_name_spec inventory_a (cstr "wlan0")).2.1.2 (by decide),
   (ni_netdev_by_name_spec inventory_a (cstr "eth0")).2.2 (named_dev "eth0" 2) (by decide)⟩

/-! ## Lookup of a VLAN by physical device and tag -/

/-- C5: `ni_netdev_by_vlan_name_and_tag` returns NULL whenever `physdev_name`
is NULL or `tag` is 0. Otherwise it returns a device exactly when that device
is the first one in interface-list order that has link type VLAN, has VLAN
data, carries the given tag and has a VLAN physdev name that is set and equal
to `physdev_name`; and it returns NULL if and only if the list has no such
device. A returned device always has type VLAN and the requested tag. -/
theorem ni_netdev_by_vlan_name_and_tag_spec (NI_IFTYPE_VLAN : Nat) (nc : ni_netconfig)
    (physdev_name : Option CStr) (tag : Nat) :
    (physdev_name = none ∨ tag = 0 →
      ni_netdev_by_vlan_name_and_tag NI_IFTYPE_VLAN nc physdev_name tag = none) ∧
    (∀ pn, physdev_name = some pn → tag ≠ 0 →
      (∀ dev, ni_netdev_by_vlan_name_and_tag NI_IFTYPE_VLAN nc physdev_name tag = some dev ↔
        ∃ pre post, nc.interfaces = pre ++ dev :: post ∧
          is_vlan_on NI_IFTYPE_VLAN pn tag dev ∧
          ∀ e ∈ pre, ¬ is_vlan_on NI_IFTYPE_VLAN pn tag e) ∧
      (ni_netdev_by_vlan_name_and_tag NI_IFTYPE_VLAN nc physdev_name tag = none ↔
        ∀ e ∈ nc.interfaces, ¬ is_vlan_on NI_IFTYPE_VLAN pn tag e)) ∧
    (∀ dev, ni_netdev_by_vlan_name_and_tag NI_IFTYPE_VLAN nc physdev_name tag = some dev →
      dev.link.type = NI_IFTYPE_VLAN ∧
        ∃ vlan, dev.link.vlan = some vlan ∧ vlan.tag = tag) := by
  refine ⟨?_, ?_, ?_⟩
  · rintro (h | h)
    · subst h; rfl
    · subst h
      cases physdev_name <;> simp [ni_netdev_by_vlan_name_and_tag]
  · intro pn hp ht
    subst hp
    simp only [ni_netdev_by_vlan_name_and_tag, ht, if_false]
    exact ⟨fun dev => by_vlan_loop_some_iff NI_IFTYPE_VLAN pn tag nc.interfaces dev,
      by_vlan_loop_none_iff NI_IFTYPE_VLAN pn tag nc.interfaces⟩
  · intro dev h
    cases physdev_name with
    | none => simp [ni_netdev_by_vlan_name_and_tag] at h
    | some pn =>
      by_cases ht : tag = 0
      · simp [ni_netdev_by_vlan_name_and_tag, ht] at h
      · simp only [ni_netdev_by_vlan_name_and_tag, ht, if_false] at h
        obtain ⟨_, _, _, ⟨hty, vlan, hv, htag, _⟩, _⟩ :=
          (by_vlan_loop_some_iff NI_IFTYPE_VLAN pn tag nc.interfaces dev).1 h
        exact ⟨hty, vlan, hv, htag⟩

/-- The VLAN lookup theorem on `inventory_v` with VLAN type code 5: a NULL
physdev name and a zero tag both yield NULL; `eth0` with tag 42 yields the
first matching VLAN device (ifindex 12), after the devices that differ in
type, tag, physdev name or lack VLAN data; `eth0` with tag 99 yields NULL. -/
theorem ni_netdev_by_vlan_name_and_tag_spec_witness :
    ni_netdev_by_vlan_name_and_tag 5 inventory_v none 42 = none ∧
    ni_netdev_by_vlan_name_and_tag 5 inventory_v (some (cstr "eth0")) 0 = none ∧
    ni_netdev_by_vlan_name_and_tag 5 inventory_v (some (cstr "eth0")) 42
      = some (vlan_dev 12 5 (some (cstr "eth0")) 42) ∧
    ni_netdev_by_vlan_name_and_tag 5 inventory_v (some (cstr "eth0")) 99 = none ∧
    ((vlan_dev 12 5 (some (cstr "eth0")) 42).link.type = 5 ∧
      ∃ vlan, (vlan_dev 12 5 (some (cstr "eth0")) 42).link.vlan = some vlan ∧
        vlan.tag = 42) :=
  ⟨(ni_netdev_by_vlan_name_and_tag_spec 5 inventory_v none 42).1 (Or.inl rfl),
   (ni_netdev_by_vlan_name_and_tag_spec 5 inventory_v (some (cstr "eth0")) 0).1 (Or.inr rfl),
   (((ni_netdev_by_vlan_name_and_tag_spec 5 inventory_v (some (cstr "eth0")) 42).2.1
      (cstr "eth0") rfl (by decide)).1 (vlan_dev 12 5 (some (cstr "eth0")) 42)).2
      ⟨[named_dev "eth0" 2, vlan_dev 10 5 (some (cstr "eth0")) 7,
          vlan_dev 11 5 (some (cstr "eth1")) 42, vlan_dev 13 2 (some (cstr "eth0")) 42,
          vlan_dev 14 5 none 42],
        [vlan_dev 15 5 (some (cstr "eth0")) 42],
        by decide,
        ⟨by decide, ⟨some (cstr "eth0"), 42⟩, by decide, by decide, by decide⟩,
        by
          intro e he
          rw [← vlan_match_iff]
          revert e
          decide⟩,
   ((ni_netdev_by_vlan_name_and_tag_spec 5 inventory_v (some (cstr "eth0")) 99).2.1
      (cstr "eth0") rfl (by decide)).2.2
      (by
        intro e he
        rw [← vlan_match_iff]
        revert e
        decide),
   (ni_netdev_by_vlan_name_and_tag_spec 5 inventory_v (some (cstr "eth0")) 42).2.2
      (vlan_dev 12 5 (some (cstr "eth0")) 42) (by decide)⟩

/-! ## Interface name creation -/

/-- C3: `ni_netdev_make_name` creates a unique name. If it returns a name, then
no device of the inventory has that name, `ni_netdev_by_name` finds nothing
under it, and the name is the first free candidate: the text of `stem`
followed by the decimal counter, as left in the 64-byte buffer, for the least
counter below 65536 whose candidate is not in use. It returns NULL only when
(and in fact exactly when) every one of the 65536 candidates it tries is the
name of a device in the inventory. -/
theorem ni_netdev_make_name_unique (nc : ni_netconfig) (stem : CStr) :
    (∀ name, ni_netdev_make_name nc stem = some name →
      ni_netdev_by_name nc name = none ∧
      (∀ dev ∈ nc.interfaces, dev.name ≠ some name) ∧
      ∃ num, num < 65536 ∧ name = candidate_name stem num ∧
        ∀ j, j < num → ∃ dev ∈ nc.interfaces, dev.name = some (candidate_name stem j)) ∧
    (ni_netdev_make_name nc stem = none ↔
      ∀ num, num < 65536 →
        ∃ dev ∈ nc.interfaces, dev.name = some (candidate_name stem num)) := by
  have taken : ∀ n : CStr, ni_netdev_by_name nc n ≠ none ↔
      ∃ dev ∈ nc.interfaces, dev.name = some n := by
    intro n
    unfold ni_netdev_by_name
    rw [Ne, by_name_loop_none_iff]
    push_neg
    rfl
  constructor
  · intro name h
    obtain ⟨hfree, k, hk, hname, hbelow⟩ := make_name_loop_some nc stem _ 0 name h
    refine ⟨hfree, (by_name_loop_none_iff name nc.interfaces).1 hfree, k, hk, ?_, ?_⟩
    · simpa using hname
    · intro j hj
      have := hbelow j hj
      rw [Nat.zero_add] at this
      exact (taken _).1 this
  · unfold ni_netdev_make_name
    rw [make_name_loop_none_iff]
    constructor
    · intro hall num hnum
      have := hall num hnum
      rw [Nat.zero_add] at this
      exact (taken _).1 this
    · intro hall k hk
      rw [Nat.zero_add]
      exact (taken _).2 (hall k hk)

/-- The name creation theorem at two inputs. On the inventory holding `eth0`
and `eth1` with stem `eth` the result is `eth2`, and no device is found under
that name. With a stem of 63 bytes the buffer holds the stem alone at every
counter, so on an inventory with a device of that very name all 65536
candidates are taken and the result is NULL. -/
theorem ni_netdev_make_name_unique_witness :
    (ni_netdev_make_name inventory_e (cstr "eth") = some (cstr "eth2") ∧
      ni_netdev_by_name inventory_e (cstr "eth2") = none) ∧
    ni_netdev_make_name inventory_long long_stem = none :=
  ⟨⟨by decide,
    ((ni_netdev_make_name_unique inventory_e (cstr "eth")).1 (cstr "eth2") (by decide)).1⟩,
   (ni_netdev_make_name_unique inventory_long long_stem).2.2
     (fun num _ => ⟨⟨some long_stem, ⟨1, 0, none⟩⟩, by decide,
        congrArg some (candidate_name_long long_stem num (by decide)).symm⟩)⟩

end Wicked
